import Mathlib

/-!
Verification of the plugin-pipeline core of `rolldown/vite`
(`packages/vite/src/node/plugins/index.ts` and
`packages/vite/src/node/build/index.ts`), as a shallow embedding:
each TypeScript function the claims mention is translated into an
executable Lean definition over explicit data models, and the claimed
properties are proved about those definitions.
-/

set_option maxRecDepth 8000

namespace ViteModel

/-! ## Hook scheduler (`getSortedPluginsByHook`)

A plugin's value for one fixed hook name is either absent (falsy), a bare
handler function, or an object hook carrying an `order` field that is
`'pre'`, `'post'`, or anything else (including `undefined`). -/

/-- The `order` field of an object hook: `'pre'`, `'post'`, or any other
value (including `undefined`). -/
inductive HookOrder where
  | pre
  | post
  | other
deriving DecidableEq, Repr

/-- A truthy hook value: a bare handler function, or an object hook
`{order, handler}` (the handler itself is irrelevant to scheduling). -/
inductive HookValue where
  | fnHook
  | objHook (order : HookOrder)
deriving DecidableEq, Repr

/-- A plugin, restricted to what `getSortedPluginsByHook` inspects for one
fixed hook name: an identity and the plugin's value for that hook
(`none` models a falsy/absent hook). -/
structure Plugin where
  pid : Nat
  hook : Option HookValue
deriving DecidableEq, Repr

/-- The scheduling tier the source's branch structure assigns to a truthy
hook value: `object` with `order === 'pre'` / `order === 'post'` go to the
`pre` / `post` tiers, everything else falls through to `normal`. -/
def tierOf : HookValue → HookOrder
  | HookValue.fnHook => HookOrder.other
  | HookValue.objHook o => o

/-- `Array.prototype.splice(i, 0, x)`: insert `x` at index `i` (append when
`i` is past the end). -/
def spliceInsert (l : List Plugin) (i : Nat) (x : Plugin) : List Plugin :=
  l.take i ++ x :: l.drop i

/-- The loop body of `getSortedPluginsByHook`: a single left-to-right scan
keeping the three insertion cursors `pre`, `normal`, `post`, splicing each
plugin that implements the hook directly at its tier's cursor. -/
def sortedInsertLoop : List Plugin → List Plugin → Nat → Nat → Nat → List Plugin
  | [], acc, _, _, _ => acc
  | p :: rest, acc, preC, normalC, postC =>
    match p.hook with
    | none => sortedInsertLoop rest acc preC normalC postC
    | some h =>
      match tierOf h with
      | HookOrder.pre =>
          sortedInsertLoop rest (spliceInsert acc preC p) (preC + 1) normalC postC
      | HookOrder.post =>
          sortedInsertLoop rest (spliceInsert acc (preC + normalC + postC) p) preC normalC (postC + 1)
      | HookOrder.other =>
          sortedInsertLoop rest (spliceInsert acc (preC + normalC) p) preC (normalC + 1) postC

/-- `getSortedPluginsByHook(hookName, plugins)` for one fixed hook name. -/
def getSortedPluginsByHook (plugins : List Plugin) : List Plugin :=
  sortedInsertLoop plugins [] 0 0 0

/-- Whether a plugin implements the hook and lands in tier `t`. -/
def tierIs (t : HookOrder) (p : Plugin) : Bool :=
  match p.hook with
  | some h => tierOf h == t
  | none => false

/-- The reference three-buffer stable partition: the `pre`-tier implementers
in manifest order, then the `normal`-tier ones, then the `post`-tier ones. -/
def refSortedByHook (plugins : List Plugin) : List Plugin :=
  plugins.filter (tierIs HookOrder.pre)
    ++ plugins.filter (tierIs HookOrder.other)
    ++ plugins.filter (tierIs HookOrder.post)

theorem spliceInsert_append_left (A B : List Plugin) (x : Plugin) :
    spliceInsert (A ++ B) A.length x = A ++ x :: B := by
  unfold spliceInsert
  rw [List.take_left, List.drop_left]

theorem sortedInsertLoop_eq (rest : List Plugin) :
    ∀ P N Q : List Plugin,
      sortedInsertLoop rest (P ++ N ++ Q) P.length N.length Q.length =
        (P ++ rest.filter (tierIs HookOrder.pre))
          ++ (N ++ rest.filter (tierIs HookOrder.other))
          ++ (Q ++ rest.filter (tierIs HookOrder.post)) := by
  induction rest with
  | nil => intro P N Q; simp [sortedInsertLoop]
  | cons p rest ih =>
    intro P N Q
    rcases hh : p.hook with _ | h
    · have hpre : tierIs HookOrder.pre p = false := by simp [tierIs, hh]
      have hnor : tierIs HookOrder.other p = false := by simp [tierIs, hh]
      have hpost : tierIs HookOrder.post p = false := by simp [tierIs, hh]
      simp only [sortedInsertLoop, hh, List.filter_cons, hpre, hnor, hpost]
      exact ih P N Q
    · rcases ht : tierOf h with _ | _ | _
      · -- pre tier
        have hpre : tierIs HookOrder.pre p = true := by simp [tierIs, hh, ht]
        have hnor : tierIs HookOrder.other p = false := by simp [tierIs, hh, ht]
        have hpost : tierIs HookOrder.post p = false := by simp [tierIs, hh, ht]
        have hins : spliceInsert (P ++ N ++ Q) P.length p = (P ++ [p]) ++ N ++ Q := by
          rw [List.append_assoc, spliceInsert_append_left, List.append_assoc]
          simp
        have hlen : P.length + 1 = (P ++ [p]).length := by simp
        simp only [sortedInsertLoop, hh, ht, hins, hlen]
        rw [ih (P ++ [p]) N Q]
        simp [List.filter_cons, hpre, hnor, hpost]
      · -- post tier
        have hpre : tierIs HookOrder.pre p = false := by simp [tierIs, hh, ht]
        have hnor : tierIs HookOrder.other p = false := by simp [tierIs, hh, ht]
        have hpost : tierIs HookOrder.post p = true := by simp [tierIs, hh, ht]
        have hins : spliceInsert (P ++ N ++ Q) (P.length + N.length + Q.length) p
            = P ++ N ++ (Q ++ [p]) := by
          calc spliceInsert (P ++ N ++ Q) (P.length + N.length + Q.length) p
              = spliceInsert ((P ++ N ++ Q) ++ []) (P ++ N ++ Q).length p := by
                rw [List.append_nil, ← List.length_append, ← List.length_append]
            _ = (P ++ N ++ Q) ++ p :: [] := spliceInsert_append_left (P ++ N ++ Q) [] p
            _ = P ++ N ++ (Q ++ [p]) := by simp
        have hlen : Q.length + 1 = (Q ++ [p]).length := by simp
        simp only [sortedInsertLoop, hh, ht, hins, hlen]
        rw [ih P N (Q ++ [p])]
        simp [List.filter_cons, hpre, hnor, hpost]
      · -- normal tier
        have hpre : tierIs HookOrder.pre p = false := by simp [tierIs, hh, ht]
        have hnor : tierIs HookOrder.other p = true := by simp [tierIs, hh, ht]
        have hpost : tierIs HookOrder.post p = false := by simp [tierIs, hh, ht]
        have hins : spliceInsert (P ++ N ++ Q) (P.length + N.length) p
            = P ++ (N ++ [p]) ++ Q := by
          calc spliceInsert ((P ++ N) ++ Q) (P.length + N.length) p
              = spliceInsert ((P ++ N) ++ Q) (P ++ N).length p := by
                rw [← List.length_append]
            _ = (P ++ N) ++ p :: Q := spliceInsert_append_left (P ++ N) Q p
            _ = P ++ (N ++ [p]) ++ Q := by simp
        have hlen : N.length + 1 = (N ++ [p]).length := by simp
        simp only [sortedInsertLoop, hh, ht, hins, hlen]
        rw [ih P (N ++ [p]) Q]
        simp [List.filter_cons, hpre, hnor, hpost]

theorem tierIs_cover (p : Plugin) :
    (tierIs HookOrder.pre p = true ∨ tierIs HookOrder.other p = true
      ∨ tierIs HookOrder.post p = true) ↔ p.hook.isSome := by
  rcases hh : p.hook with _ | h
  · simp [tierIs, hh]
  · rcases ht : tierOf h with _ | _ | _ <;> simp [tierIs, hh, ht]

/-- C1: for every plugin list and hook name, `getSortedPluginsByHook` —
the single-pass splice-based insertion — returns exactly the reference
three-buffer stable partition: the plugins with a truthy hook value, all
`pre`-ordered ones first, then the untagged ones, then the `post`-ordered
ones, each tier in input order; in particular its output contains exactly
the plugins whose hook value is truthy. -/
theorem getSortedPluginsByHook_refines_stable_partition (plugins : List Plugin) :
    getSortedPluginsByHook plugins = refSortedByHook plugins ∧
      ∀ p : Plugin, p ∈ getSortedPluginsByHook plugins ↔ p ∈ plugins ∧ p.hook.isSome := by
  have hmain : getSortedPluginsByHook plugins = refSortedByHook plugins := by
    have h := sortedInsertLoop_eq plugins [] [] []
    simpa [getSortedPluginsByHook, refSortedByHook] using h
  refine ⟨hmain, fun p => ?_⟩
  rw [hmain]
  unfold refSortedByHook
  simp only [List.mem_append, List.mem_filter]
  constructor
  · rintro ((⟨hp, ht⟩ | ⟨hp, ht⟩) | ⟨hp, ht⟩)
    · exact ⟨hp, (tierIs_cover p).mp (Or.inl ht)⟩
    · exact ⟨hp, (tierIs_cover p).mp (Or.inr (Or.inl ht))⟩
    · exact ⟨hp, (tierIs_cover p).mp (Or.inr (Or.inr ht))⟩
  · rintro ⟨hp, hs⟩
    rcases (tierIs_cover p).mpr hs with ht | ht | ht
    · exact Or.inl (Or.inl ⟨hp, ht⟩)
    · exact Or.inl (Or.inr ⟨hp, ht⟩)
    · exact Or.inr ⟨hp, ht⟩

/-! ## Transform configuration resolver (`transformWithOxc`)

The type-only-import-stripping decision table (source lines around the
`verbatimModuleSyntax` / `preserveValueImports` / `importsNotUsedAsValues`
branch of `transformWithOxc`). -/

/-- The values of the legacy `importsNotUsedAsValues` tsconfig flag. -/
inductive ImportsNotUsedAsValues where
  | remove
  | preserve
  | error
deriving DecidableEq, Repr

/-- The three compiler options of the loaded tsconfig that the decision
table reads; `none` models an absent (`undefined`) flag.  The field
`verbatimModuleSyn` models the tsconfig flag `verbatimModuleSyntax`. -/
structure TsCompilerOptions where
  verbatimModuleSyn : Option Bool
  preserveValueImports : Option Bool
  importsNotUsedAsValues : Option ImportsNotUsedAsValues
deriving DecidableEq, Repr

/-- The decision table of `transformWithOxc` setting
`resolvedOptions.typescript.onlyRemoveTypeImports`.  `init` is the field's
value before the branch runs (`none` = unset); the result is the field's
value afterwards, paired with whether the unsupported-combination warning
was emitted. -/
def resolveOnlyRemoveTypeImports (co : TsCompilerOptions) (init : Option Bool) :
    Option Bool × Bool :=
  match co.verbatimModuleSyn with
  | some v => (some v, false)
  | none =>
    if co.preserveValueImports.isSome || co.importsNotUsedAsValues.isSome then
      let pvi := co.preserveValueImports.getD false
      let inuav := co.importsNotUsedAsValues.getD ImportsNotUsedAsValues.remove
      if pvi == false && inuav == ImportsNotUsedAsValues.remove then
        (some true, false)
      else if pvi == true
          && (inuav == ImportsNotUsedAsValues.preserve
              || inuav == ImportsNotUsedAsValues.error) then
        (some false, false)
      else
        (init, true)
    else
      (init, false)

/-- C2: `transformWithOxc` sets the strip-type-only-imports flag exactly per
the decision table: an explicitly set `verbatimModuleSyntax` wins regardless
of the legacy flags; otherwise, when at least one legacy flag is explicitly
set, the defaulted combination `false`+`remove` yields `true`,
`true`+(`preserve` or `error`) yields `false`, and any other combination
emits the warning and leaves the flag unchanged (unset when it started
unset); when no flag of the pair is present the flag stays unchanged and no
warning is emitted. -/
theorem resolveOnlyRemoveTypeImports_decision_table
    (co : TsCompilerOptions) (init : Option Bool) :
    (∀ v, co.verbatimModuleSyn = some v →
        resolveOnlyRemoveTypeImports co init = (some v, false)) ∧
    (co.verbatimModuleSyn = none → co.preserveValueImports = none →
        co.importsNotUsedAsValues = none →
        resolveOnlyRemoveTypeImports co init = (init, false)) ∧
    (co.verbatimModuleSyn = none →
      (co.preserveValueImports.isSome ∨ co.importsNotUsedAsValues.isSome) →
      ((co.preserveValueImports.getD false = false ∧
          co.importsNotUsedAsValues.getD ImportsNotUsedAsValues.remove
            = ImportsNotUsedAsValues.remove →
          resolveOnlyRemoveTypeImports co init = (some true, false)) ∧
       (co.preserveValueImports.getD false = true ∧
          (co.importsNotUsedAsValues.getD ImportsNotUsedAsValues.remove
              = ImportsNotUsedAsValues.preserve ∨
           co.importsNotUsedAsValues.getD ImportsNotUsedAsValues.remove
              = ImportsNotUsedAsValues.error) →
          resolveOnlyRemoveTypeImports co init = (some false, false)) ∧
       ((co.preserveValueImports.getD false = true ∧
           co.importsNotUsedAsValues.getD ImportsNotUsedAsValues.remove
             = ImportsNotUsedAsValues.remove) ∨
        (co.preserveValueImports.getD false = false ∧
           co.importsNotUsedAsValues.getD ImportsNotUsedAsValues.remove
             ≠ ImportsNotUsedAsValues.remove) →
          resolveOnlyRemoveTypeImports co init = (init, true)))) := by
  rcases co with ⟨v, pvi, inuav⟩
  refine ⟨?_, ?_, ?_⟩
  · rintro b rfl
    rfl
  · rintro rfl rfl rfl
    rfl
  · rintro rfl hset
    rcases pvi with _ | pb <;> rcases inuav with _ | iv
    · simp at hset
    · rcases iv <;> refine ⟨?_, ?_, ?_⟩ <;> simp [resolveOnlyRemoveTypeImports]
    · rcases pb <;> refine ⟨?_, ?_, ?_⟩ <;> simp [resolveOnlyRemoveTypeImports]
    · rcases pb <;> rcases iv <;> refine ⟨?_, ?_, ?_⟩ <;>
        simp [resolveOnlyRemoveTypeImports]

/-- Witness for C2 at a concrete input: `preserveValueImports = true` with
`importsNotUsedAsValues = 'remove'` is the unsupported combination — the
flag stays unset and the warning is emitted. -/
theorem resolveOnlyRemoveTypeImports_decision_table_witness :
    resolveOnlyRemoveTypeImports
      ⟨none, some true, some ImportsNotUsedAsValues.remove⟩ none = (none, true) :=
  ((resolveOnlyRemoveTypeImports_decision_table
      ⟨none, some true, some ImportsNotUsedAsValues.remove⟩ none).2.2 rfl
    (Or.inl (by decide))).2.2 (Or.inl (by decide))

/-! ## Transform engine error propagation (`transformWithOxc`) -/

/-- The external transform engine's result: generated code, an optional
source map (opaque payload), and the reported error messages. -/
structure OxcTransformResult where
  code : String
  map : Option Nat
  errors : List String
deriving DecidableEq, Repr

/-- The error check `transformWithOxc` runs on the engine's result:
`if (result.errors.length > 0) throw new Error(result.errors[0])`,
otherwise the result is returned. -/
def transformResultOrThrow (result : OxcTransformResult) :
    Except String OxcTransformResult :=
  if result.errors.length > 0 then
    Except.error (result.errors.headD "")
  else
    Except.ok result

/-- C7: `transformWithOxc` throws carrying the engine's first reported
message if and only if the engine's result contains one or more errors;
with an empty errors list it returns the result without throwing. -/
theorem transformResultOrThrow_iff_errors (result : OxcTransformResult) :
    ((∃ msg, transformResultOrThrow result = Except.error msg) ↔
        result.errors ≠ []) ∧
    (∀ e es, result.errors = e :: es →
        transformResultOrThrow result = Except.error e) ∧
    (result.errors = [] → transformResultOrThrow result = Except.ok result) := by
  refine ⟨⟨?_, ?_⟩, ?_, ?_⟩
  · rintro ⟨msg, hmsg⟩ hnil
    simp [transformResultOrThrow, hnil] at hmsg
  · intro hne
    rcases he : result.errors with _ | ⟨e, es⟩
    · exact absurd he hne
    · exact ⟨e, by simp [transformResultOrThrow, he]⟩
  · intro e es he
    simp [transformResultOrThrow, he]
  · intro he
    simp [transformResultOrThrow, he]

/-- Witness for C7 at concrete inputs: a result with errors `["boom"]`
throws `"boom"`, a result with no errors is returned intact. -/
theorem transformResultOrThrow_iff_errors_witness :
    transformResultOrThrow ⟨"out", none, ["boom"]⟩ = Except.error "boom" ∧
    transformResultOrThrow ⟨"out", none, []⟩ = Except.ok ⟨"out", none, []⟩ :=
  ⟨(transformResultOrThrow_iff_errors ⟨"out", none, ["boom"]⟩).2.1 "boom" [] rfl,
   (transformResultOrThrow_iff_errors ⟨"out", none, []⟩).2.2 rfl⟩

/-! ## Settings-file parse failure handling (`transformWithOxc`) -/

/-- The tsconfck parse error: the offending settings file (`none` or the
empty string model a falsy `tsconfigFile`) and an opaque message. -/
structure TSConfckParseErrorModel where
  tsconfigFile : Option String
  msg : String
deriving DecidableEq, Repr

/-- An error thrown while loading the typed-language project settings:
either a settings-file parse error or any other failure. -/
inductive TsLoadError where
  | parse (e : TSConfckParseErrorModel)
  | other (msg : String)
deriving DecidableEq, Repr

/-- JavaScript truthiness of an optional string (`undefined` and `''` are
falsy). -/
def optStringTruthy : Option String → Bool
  | some s => s ≠ ""
  | none => false

/-- Modelled from the spec: `ensureWatchedFile` (imported from `../utils`,
which is not part of the given sources) registers a file path with the
file-system watcher for change notification; the watcher's registration
state is modelled as the list of registered paths, registration as
appending. -/
def ensureWatchedFile (watched : List String) (file : String) : List String :=
  watched ++ [file]

/-- The `catch` block of `transformWithOxc`'s settings-loading step: when
the thrown error is a `TSConfckParseError` with a truthy `tsconfigFile` and
both a watcher and a config were supplied, the offending file is registered
for watching; in every case the error itself is rethrown.  Returns the
watcher state paired with the propagated error. -/
def handleTsconfigLoadError (hasWatcher : Bool) (hasConfig : Bool)
    (e : TsLoadError) (watched : List String) : List String × TsLoadError :=
  match e with
  | TsLoadError.parse pe =>
    if hasWatcher && optStringTruthy pe.tsconfigFile && hasConfig then
      (ensureWatchedFile watched (pe.tsconfigFile.getD ""), e)
    else
      (watched, e)
  | TsLoadError.other _ => (watched, e)

/-- C8: a settings-file parse error naming the offending file, hit while a
watcher and a config were supplied, registers that file for change-watching
and then propagates — and on every path the propagated error is the very
error that was caught, unwrapped. -/
theorem handleTsconfigLoadError_watches_then_rethrows
    (pe : TSConfckParseErrorModel) (watched : List String) (f : String) :
    (∀ (hw hc : Bool) (e : TsLoadError) (w : List String),
        (handleTsconfigLoadError hw hc e w).2 = e) ∧
    (pe.tsconfigFile = some f → f ≠ "" →
        handleTsconfigLoadError true true (TsLoadError.parse pe) watched
          = (ensureWatchedFile watched f, TsLoadError.parse pe)) := by
  constructor
  · intro hw hc e w
    rcases e with pe' | m
    · by_cases h : (hw && optStringTruthy pe'.tsconfigFile && hc) = true
      · simp [handleTsconfigLoadError, h]
      · simp [handleTsconfigLoadError, h]
    · rfl
  · intro hf hne
    have ht : optStringTruthy pe.tsconfigFile = true := by
      simp [optStringTruthy, hf, hne]
    simp [handleTsconfigLoadError, ht, hf, ensureWatchedFile, optStringTruthy, hne]

/-- Witness for C8 at a concrete input: a parse error naming
`"/x/tsconfig.json"` gets that file registered and is rethrown unchanged. -/
theorem handleTsconfigLoadError_watches_then_rethrows_witness :
    handleTsconfigLoadError true true
        (TsLoadError.parse ⟨some "/x/tsconfig.json", "bad json"⟩) []
      = (["/x/tsconfig.json"], TsLoadError.parse ⟨some "/x/tsconfig.json", "bad json"⟩) :=
  (handleTsconfigLoadError_watches_then_rethrows
      ⟨some "/x/tsconfig.json", "bad json"⟩ [] "/x/tsconfig.json").2 rfl (by decide)

/-! ## Dialect selection (`transformWithOxc`)

Models of the string helpers the lang-selection step uses:
`validExtensionRE = /\.\w+$/`, `cleanUrl` (strip from the first `?` or `#`),
and Node's `path.extname`. -/

/-- A JavaScript regex word character (`\w` = `[A-Za-z0-9_]`). -/
def isWordChar (c : Char) : Bool :=
  c.isAlphanum || c == '_'

/-- `validExtensionRE.test(filename)` for `/\.\w+$/`: the string ends in a
dot followed by one or more word characters. -/
def validExtensionTest (s : String) : Bool :=
  let r := s.data.reverse
  !(r.takeWhile isWordChar).isEmpty &&
    (match r.dropWhile isWordChar with
     | '.' :: _ => true
     | _ => false)

/-- `cleanUrl(url)`: remove everything from the first `?` or `#` on
(`url.replace(/[?#].*$/s, '')`). -/
def cleanUrl (url : String) : String :=
  String.mk (url.data.takeWhile (fun c => c != '?' && c != '#'))

/-- Node's `path.extname` (posix): on the last path component (trailing
slashes stripped), the substring from the last dot on — unless there is no
dot, the last dot is the component's first character (dotfiles), or the
component is exactly `".."`. -/
def extname (p : String) : String :=
  let revBase := (p.data.reverse.dropWhile (fun c => c == '/')).takeWhile (fun c => c != '/')
  let afterDot := revBase.takeWhile (fun c => c != '.')
  if afterDot.length = revBase.length then ""
  else if afterDot.length + 1 = revBase.length then ""
  else if revBase = ['.', '.'] then ""
  else String.mk ('.' :: afterDot.reverse)

/-- The extension the lang-selection step reads: the raw filename when it
already ends in a recognized dot-extension, else the query-stripped one;
then `path.extname(...).slice(1)`. -/
def transformExt (filename : String) : String :=
  (extname (if validExtensionTest filename then filename else cleanUrl filename)).drop 1

/-- The extension→dialect mapping of the lang-selection step:
`cjs`/`mjs` → `js`, `cts`/`mts` → `ts`, anything else verbatim. -/
def langFromExt (ext : String) : String :=
  if ext = "cjs" || ext = "mjs" then "js"
  else if ext = "cts" || ext = "mts" then "ts"
  else ext

/-- The lang-selection step of `transformWithOxc`: an explicitly supplied
(truthy) `options.lang` is used unchanged, otherwise the dialect is derived
from the filename's extension. -/
def resolveLang (optLang : Option String) (filename : String) : String :=
  let lang0 := optLang.getD ""
  if lang0 = "" then
    let ext := (extname (if validExtensionTest filename then filename
                         else cleanUrl filename)).drop 1
    if ext = "cjs" || ext = "mjs" then "js"
    else if ext = "cts" || ext = "mts" then "ts"
    else ext
  else lang0

/-- C4: when `options.lang` is set it is used unchanged; otherwise the
dialect is the extension→dialect mapping applied to the filename's
extension (query suffix stripped first unless the raw filename already ends
in a recognized dot-extension); in particular `comp.mts` with no explicit
lang resolves to `ts` and `worker.cjs?raw` resolves to `js`. -/
theorem resolveLang_dialect_selection :
    (∀ (filename lang : String), lang ≠ "" →
        resolveLang (some lang) filename = lang) ∧
    (∀ filename : String,
        resolveLang none filename = langFromExt (transformExt filename)) ∧
    resolveLang none "comp.mts" = "ts" ∧
    resolveLang none "worker.cjs?raw" = "js" := by
  refine ⟨?_, ?_, ?_, ?_⟩
  · intro filename lang hne
    simp [resolveLang, hne]
  · intro filename
    simp [resolveLang, langFromExt, transformExt]
  · rfl
  · rfl

/-- Witness for C4 at a concrete input: an explicit `lang` wins over the
filename's extension. -/
theorem resolveLang_dialect_selection_witness :
    resolveLang (some "tsx") "main.css" = "tsx" :=
  resolveLang_dialect_selection.1 "main.css" "tsx" (by decide)

/-! ## Legacy-option adapter (`convertEsbuildConfigToOxcConfig`) -/

/-- The esbuild `jsx` transform-option values the adapter's switch
distinguishes. -/
inductive EsbuildJsxMode where
  | automatic
  | transform
  | preserve
deriving DecidableEq, Repr

/-- The esbuild `loader` values (the `Loader` string union). -/
inductive EsbuildLoader where
  | base64
  | binary
  | copy
  | css
  | dataurl
  | defaultL
  | empty
  | file
  | js
  | json
  | jsx
  | localCss
  | text
  | ts
  | tsx
deriving DecidableEq, Repr

/-- The string value of an esbuild loader tag. -/
def loaderTag : EsbuildLoader → String
  | EsbuildLoader.base64 => "base64"
  | EsbuildLoader.binary => "binary"
  | EsbuildLoader.copy => "copy"
  | EsbuildLoader.css => "css"
  | EsbuildLoader.dataurl => "dataurl"
  | EsbuildLoader.defaultL => "default"
  | EsbuildLoader.empty => "empty"
  | EsbuildLoader.file => "file"
  | EsbuildLoader.js => "js"
  | EsbuildLoader.json => "json"
  | EsbuildLoader.jsx => "jsx"
  | EsbuildLoader.localCss => "local-css"
  | EsbuildLoader.text => "text"
  | EsbuildLoader.ts => "ts"
  | EsbuildLoader.tsx => "tsx"

/-- The esbuild `sourcemap` values: a boolean, or one of the string modes. -/
inductive EsbuildSourcemapOpt where
  | boolean (b : Bool)
  | linked
  | inlineMode
  | external
  | both
deriving DecidableEq, Repr

/-- The warnings the adapter can log. -/
inductive ConvertWarning where
  | jsxPreserveUnsupported
  | loaderUnsupported
  | sourcemapUnsupported
deriving DecidableEq, Repr

/-- The esbuild options object, restricted to the fields the adapter reads
(`jsxInject`, `include`, `exclude` are passed through untouched and are
omitted; `define` is an opaque payload). -/
structure ESBuildOptionsModel where
  jsx : Option EsbuildJsxMode
  jsxDev : Option Bool
  jsxFactory : Option String
  jsxFragment : Option String
  jsxImportSource : Option String
  loader : Option EsbuildLoader
  define : Option Nat
  sourcemap : Option EsbuildSourcemapOpt
deriving DecidableEq, Repr

/-- The adapter's output `jsx` sub-object. -/
structure OxcJsxOptionsModel where
  runtime : Option String
  development : Option Bool
  pragma : Option String
  pragmaFrag : Option String
  importSource : Option String
deriving DecidableEq, Repr

/-- The adapter's output: the oxc options it fills in, plus the warnings it
logged, in order. -/
structure OxcOptionsModel where
  jsx : OxcJsxOptionsModel
  lang : Option String
  define : Option Nat
  sourcemap : Option Bool
  warnings : List ConvertWarning
deriving DecidableEq, Repr

/-- The adapter's `switch (esbuildTransformOptions.jsx)`: runtime choice
plus a warning for `'preserve'`. -/
def convertJsxRuntime : Option EsbuildJsxMode → Option String × List ConvertWarning
  | some EsbuildJsxMode.automatic => (some "automatic", [])
  | some EsbuildJsxMode.transform => (some "classic", [])
  | some EsbuildJsxMode.preserve => (none, [ConvertWarning.jsxPreserveUnsupported])
  | none => (none, [])

/-- The adapter's `loader` branch: one of the four dialect tags becomes
`lang`, any other loader value warns and is dropped. -/
def convertLoaderLang : Option EsbuildLoader → Option String × List ConvertWarning
  | none => (none, [])
  | some l =>
    if ["js", "jsx", "ts", "tsx"].contains (loaderTag l) then
      (some (loaderTag l), [])
    else
      (none, [ConvertWarning.loaderUnsupported])

/-- The adapter's `switch (esbuildTransformOptions.sourcemap)`:
`true`/`false`/`undefined` pass through, `'external'` becomes `true`,
`'linked'` is silently dropped, anything else warns and is dropped. -/
def convertSourcemapOpt : Option EsbuildSourcemapOpt → Option Bool × List ConvertWarning
  | some (EsbuildSourcemapOpt.boolean b) => (some b, [])
  | none => (none, [])
  | some EsbuildSourcemapOpt.external => (some true, [])
  | some EsbuildSourcemapOpt.linked => (none, [])
  | some EsbuildSourcemapOpt.inlineMode => (none, [ConvertWarning.sourcemapUnsupported])
  | some EsbuildSourcemapOpt.both => (none, [ConvertWarning.sourcemapUnsupported])

/-- `convertEsbuildConfigToOxcConfig(esbuildConfig, logger)`: the adapter's
result on the modelled fields, warnings accumulated in the source's emission
order (jsx switch, then loader, then sourcemap). -/
def convertEsbuildConfigToOxcConfig (e : ESBuildOptionsModel) : OxcOptionsModel :=
  { jsx :=
      { runtime := (convertJsxRuntime e.jsx).1
        development := if e.jsxDev.getD false then some true else none
        pragma := if optStringTruthy e.jsxFactory then e.jsxFactory else none
        pragmaFrag := if optStringTruthy e.jsxFragment then e.jsxFragment else none
        importSource := if optStringTruthy e.jsxImportSource then e.jsxImportSource else none }
    lang := (convertLoaderLang e.loader).1
    define := e.define
    sourcemap := (convertSourcemapOpt e.sourcemap).1
    warnings := (convertJsxRuntime e.jsx).2 ++ (convertLoaderLang e.loader).2
      ++ (convertSourcemapOpt e.sourcemap).2 }

theorem convertJsxRuntime_no_loader_warning (j : Option EsbuildJsxMode) :
    ConvertWarning.loaderUnsupported ∉ (convertJsxRuntime j).2 ∧
    ConvertWarning.sourcemapUnsupported ∉ (convertJsxRuntime j).2 := by
  rcases j with _ | m
  · simp [convertJsxRuntime]
  · rcases m <;> simp [convertJsxRuntime]

theorem convertSourcemapOpt_no_loader_warning (s : Option EsbuildSourcemapOpt) :
    ConvertWarning.loaderUnsupported ∉ (convertSourcemapOpt s).2 := by
  rcases s with _ | m
  · simp [convertSourcemapOpt]
  · rcases m <;> simp [convertSourcemapOpt]

theorem convertLoaderLang_no_sourcemap_warning (l : Option EsbuildLoader) :
    ConvertWarning.sourcemapUnsupported ∉ (convertLoaderLang l).2 := by
  rcases l with _ | t
  · simp [convertLoaderLang]
  · rcases t <;> simp [convertLoaderLang, loaderTag]

/-- C9: the adapter maps a legacy `loader` to `lang` exactly when it is one
of `js`, `jsx`, `ts`, `tsx` (any other loader warns and leaves `lang`
unset), and maps legacy `sourcemap` as: `true`, `false` and unset pass
through, `'external'` becomes `true`, `'linked'` is dropped silently with
no warning, and any other value warns and is dropped. -/
theorem convertEsbuildConfigToOxcConfig_loader_sourcemap (e : ESBuildOptionsModel) :
    (∀ l, e.loader = some l →
      (loaderTag l ∈ (["js", "jsx", "ts", "tsx"] : List String) →
        (convertEsbuildConfigToOxcConfig e).lang = some (loaderTag l) ∧
        ConvertWarning.loaderUnsupported ∉ (convertEsbuildConfigToOxcConfig e).warnings) ∧
      (loaderTag l ∉ (["js", "jsx", "ts", "tsx"] : List String) →
        (convertEsbuildConfigToOxcConfig e).lang = none ∧
        ConvertWarning.loaderUnsupported ∈ (convertEsbuildConfigToOxcConfig e).warnings)) ∧
    (e.loader = none →
        (convertEsbuildConfigToOxcConfig e).lang = none ∧
        ConvertWarning.loaderUnsupported ∉ (convertEsbuildConfigToOxcConfig e).warnings) ∧
    (∀ b, e.sourcemap = some (EsbuildSourcemapOpt.boolean b) →
        (convertEsbuildConfigToOxcConfig e).sourcemap = some b ∧
        ConvertWarning.sourcemapUnsupported ∉ (convertEsbuildConfigToOxcConfig e).warnings) ∧
    (e.sourcemap = none →
        (convertEsbuildConfigToOxcConfig e).sourcemap = none ∧
        ConvertWarning.sourcemapUnsupported ∉ (convertEsbuildConfigToOxcConfig e).warnings) ∧
    (e.sourcemap = some EsbuildSourcemapOpt.external →
        (convertEsbuildConfigToOxcConfig e).sourcemap = some true ∧
        ConvertWarning.sourcemapUnsupported ∉ (convertEsbuildConfigToOxcConfig e).warnings) ∧
    (e.sourcemap = some EsbuildSourcemapOpt.linked →
        (convertEsbuildConfigToOxcConfig e).sourcemap = none ∧
        ConvertWarning.sourcemapUnsupported ∉ (convertEsbuildConfigToOxcConfig e).warnings) ∧
    ((e.sourcemap = some EsbuildSourcemapOpt.inlineMode ∨
        e.sourcemap = some EsbuildSourcemapOpt.both) →
        (convertEsbuildConfigToOxcConfig e).sourcemap = none ∧
        ConvertWarning.sourcemapUnsupported ∈ (convertEsbuildConfigToOxcConfig e).warnings) := by
  have hjl := convertJsxRuntime_no_loader_warning e.jsx
  have hsl := convertSourcemapOpt_no_loader_warning e.sourcemap
  have hls := convertLoaderLang_no_sourcemap_warning e.loader
  refine ⟨?_, ?_, ?_, ?_, ?_, ?_, ?_⟩
  · intro l hl
    constructor
    · intro hmem
      have h1 : convertLoaderLang e.loader = (some (loaderTag l), []) := by
        rw [hl]; simp [convertLoaderLang, hmem]
      refine ⟨?_, ?_⟩
      · simp [convertEsbuildConfigToOxcConfig, h1]
      · simp [convertEsbuildConfigToOxcConfig, h1, hjl.1, hsl]
    · intro hmem
      have h1 : convertLoaderLang e.loader = (none, [ConvertWarning.loaderUnsupported]) := by
        rw [hl]; simp only [convertLoaderLang]
        rw [if_neg]
        simpa using hmem
      refine ⟨?_, ?_⟩
      · simp [convertEsbuildConfigToOxcConfig, h1]
      · simp [convertEsbuildConfigToOxcConfig, h1]
  · intro hl
    have h1 : convertLoaderLang e.loader = (none, []) := by rw [hl]; rfl
    exact ⟨by simp [convertEsbuildConfigToOxcConfig, h1],
      by simp [convertEsbuildConfigToOxcConfig, h1, hjl.1, hsl]⟩
  · intro b hs
    have h1 : convertSourcemapOpt e.sourcemap = (some b, []) := by rw [hs]; rfl
    exact ⟨by simp [convertEsbuildConfigToOxcConfig, h1],
      by simp [convertEsbuildConfigToOxcConfig, h1, hjl.2, hls]⟩
  · intro hs
    have h1 : convertSourcemapOpt e.sourcemap = (none, []) := by rw [hs]; rfl
    exact ⟨by simp [convertEsbuildConfigToOxcConfig, h1],
      by simp [convertEsbuildConfigToOxcConfig, h1, hjl.2, hls]⟩
  · intro hs
    have h1 : convertSourcemapOpt e.sourcemap = (some true, []) := by rw [hs]; rfl
    exact ⟨by simp [convertEsbuildConfigToOxcConfig, h1],
      by simp [convertEsbuildConfigToOxcConfig, h1, hjl.2, hls]⟩
  · intro hs
    have h1 : convertSourcemapOpt e.sourcemap = (none, []) := by rw [hs]; rfl
    exact ⟨by simp [convertEsbuildConfigToOxcConfig, h1],
      by simp [convertEsbuildConfigToOxcConfig, h1, hjl.2, hls]⟩
  · intro hs
    have h1 : convertSourcemapOpt e.sourcemap
        = (none, [ConvertWarning.sourcemapUnsupported]) := by
      rcases hs with hs | hs <;> (rw [hs]; rfl)
    exact ⟨by simp [convertEsbuildConfigToOxcConfig, h1],
      by simp [convertEsbuildConfigToOxcConfig, h1]⟩

/-- Witness for C9 at concrete inputs: loader `'ts'` maps to `lang = 'ts'`,
and sourcemap `'external'` maps to `true`, with no warnings. -/
theorem convertEsbuildConfigToOxcConfig_loader_sourcemap_witness :
    (convertEsbuildConfigToOxcConfig
        ⟨none, none, none, none, none, some EsbuildLoader.ts, none,
          some EsbuildSourcemapOpt.external⟩).lang = some "ts" ∧
    (convertEsbuildConfigToOxcConfig
        ⟨none, none, none, none, none, some EsbuildLoader.ts, none,
          some EsbuildSourcemapOpt.external⟩).sourcemap = some true :=
  ⟨(((convertEsbuildConfigToOxcConfig_loader_sourcemap
        ⟨none, none, none, none, none, some EsbuildLoader.ts, none,
          some EsbuildSourcemapOpt.external⟩).1 EsbuildLoader.ts rfl).1 (by decide)).1,
   ((convertEsbuildConfigToOxcConfig_loader_sourcemap
        ⟨none, none, none, none, none, some EsbuildLoader.ts, none,
          some EsbuildSourcemapOpt.external⟩).2.2.2.2.1 rfl).1⟩

/-! ## Build session lifecycle (`build` in `build/index.ts`)

JavaScript is single-threaded and cooperatively scheduled, so an
interleaving of concurrent `build()` invocations is a sequence of atomic
events on the module-level state: `enter` (the `parallelCallCounts++` at
the top of `build`), `push h` (the `paralellBuilds.push(bundle)` inside
`doBuild`), and `exit` (the `finally` block: `parallelCallCounts--`, then,
when the counter is `<= 0`, close every live handle and clear the array).
Closing is observable in the model as moving the handles to
`closedBuilds`. -/

/-- The module-level state `build` mutates: the concurrency counter, the
live-handle array, and (for observability) the handles closed so far. -/
structure BuildSessionState where
  parallelCallCounts : Int
  paralellBuilds : List Nat
  closedBuilds : List Nat
deriving DecidableEq, Repr

/-- One atomic event of a `build()` invocation. -/
inductive BuildEvent where
  | enter
  | push (handle : Nat)
  | exit
deriving DecidableEq, Repr

/-- One event's effect on the state, paired with whether this event ran the
clear-the-handle-set action. -/
def buildStep (s : BuildSessionState) : BuildEvent → BuildSessionState × Bool
  | BuildEvent.enter =>
    ({ s with parallelCallCounts := s.parallelCallCounts + 1 }, false)
  | BuildEvent.push h =>
    ({ s with paralellBuilds := s.paralellBuilds ++ [h] }, false)
  | BuildEvent.exit =>
    let c := s.parallelCallCounts - 1
    if c ≤ 0 then
      ({ parallelCallCounts := c, paralellBuilds := [],
         closedBuilds := s.closedBuilds ++ s.paralellBuilds }, true)
    else
      ({ s with parallelCallCounts := c }, false)

theorem buildStep_exit (s : BuildSessionState) :
    buildStep s BuildEvent.exit =
      if s.parallelCallCounts - 1 ≤ 0 then
        (⟨s.parallelCallCounts - 1, [], s.closedBuilds ++ s.paralellBuilds⟩, true)
      else
        (⟨s.parallelCallCounts - 1, s.paralellBuilds, s.closedBuilds⟩, false) := rfl

theorem buildStep_exit_counter (s : BuildSessionState) :
    ((buildStep s BuildEvent.exit).1).parallelCallCounts
      = s.parallelCallCounts - 1 := by
  rw [buildStep_exit]
  split_ifs <;> rfl

/-- Run a sequence of events. -/
def runEvents : BuildSessionState → List BuildEvent → BuildSessionState
  | s, [] => s
  | s, e :: tr => runEvents (buildStep s e).1 tr

/-- The state before any build has run. -/
def initialBuildSession : BuildSessionState := ⟨0, [], []⟩

/-- How many `enter` events a trace holds. -/
def entersCount (tr : List BuildEvent) : Nat :=
  (tr.filter (fun e => e == BuildEvent.enter)).length

/-- How many `exit` events a trace holds. -/
def exitsCount (tr : List BuildEvent) : Nat :=
  (tr.filter (fun e => e == BuildEvent.exit)).length

/-- A trace is an interleaving of well-bracketed invocations: no prefix has
more exits than entries. -/
def BalancedTrace (tr : List BuildEvent) : Prop :=
  ∀ n, n ≤ tr.length →
    exitsCount (tr.take n) ≤ entersCount (tr.take n)

instance : DecidablePred BalancedTrace := fun tr =>
  Nat.decidableBallLE tr.length _

theorem runEvents_counter (tr : List BuildEvent) :
    ∀ s : BuildSessionState,
      (runEvents s tr).parallelCallCounts =
        s.parallelCallCounts + (entersCount tr : Int) - (exitsCount tr : Int) := by
  induction tr with
  | nil => intro s; simp [runEvents, entersCount, exitsCount]
  | cons e tr ih =>
    intro s
    rcases e with _ | h | _
    · have : entersCount (BuildEvent.enter :: tr) = entersCount tr + 1 := by
        simp [entersCount, List.filter_cons]
      have h2 : exitsCount (BuildEvent.enter :: tr) = exitsCount tr := by
        simp [exitsCount, List.filter_cons]
      rw [runEvents, ih, this, h2]
      simp [buildStep]
      omega
    · have : entersCount (BuildEvent.push h :: tr) = entersCount tr := by
        simp [entersCount, List.filter_cons]
      have h2 : exitsCount (BuildEvent.push h :: tr) = exitsCount tr := by
        simp [exitsCount, List.filter_cons]
      rw [runEvents, ih, this, h2]
      simp [buildStep]
    · have : entersCount (BuildEvent.exit :: tr) = entersCount tr := by
        simp [entersCount, List.filter_cons]
      have h2 : exitsCount (BuildEvent.exit :: tr) = exitsCount tr + 1 := by
        simp [exitsCount, List.filter_cons]
      rw [runEvents, ih, this, h2, buildStep_exit_counter]
      omega

/-- C3: along every interleaving of well-bracketed concurrent `build()`
invocations, an `enter` increments the counter and an `exit` decrements it
(the `finally` block runs on success and failure alike), and the clear
action runs at a step exactly when that step is an `exit` that returns the
counter to zero — never while the counter is still positive, and at each
such return-to-zero it closes every accumulated live handle and empties the
handle array. -/
theorem buildSession_clear_iff_zero (u : List BuildEvent) (e : BuildEvent)
    (hbal : BalancedTrace (u ++ [e])) :
    (e = BuildEvent.enter →
        ((buildStep (runEvents initialBuildSession u) e).1).parallelCallCounts
          = (runEvents initialBuildSession u).parallelCallCounts + 1) ∧
    (e = BuildEvent.exit →
        ((buildStep (runEvents initialBuildSession u) e).1).parallelCallCounts
          = (runEvents initialBuildSession u).parallelCallCounts - 1) ∧
    ((buildStep (runEvents initialBuildSession u) e).2 = true ↔
        (e = BuildEvent.exit ∧
          ((buildStep (runEvents initialBuildSession u) e).1).parallelCallCounts = 0)) ∧
    ((buildStep (runEvents initialBuildSession u) e).2 = true →
        ((buildStep (runEvents initialBuildSession u) e).1).paralellBuilds = [] ∧
        ((buildStep (runEvents initialBuildSession u) e).1).closedBuilds
          = (runEvents initialBuildSession u).closedBuilds
            ++ (runEvents initialBuildSession u).paralellBuilds) := by
  set s := runEvents initialBuildSession u with hs
  have hcounter : s.parallelCallCounts
      = (entersCount u : Int) - (exitsCount u : Int) := by
    rw [hs, runEvents_counter]
    simp [initialBuildSession]
  have htake_u : (u ++ [e]).take u.length = u := List.take_left u [e]
  have hnonneg : (exitsCount u : Int) ≤ (entersCount u : Int) := by
    have := hbal u.length (by simp)
    rw [htake_u] at this
    exact_mod_cast this
  refine ⟨?_, ?_, ?_, ?_⟩
  · rintro rfl
    rfl
  · rintro rfl
    exact buildStep_exit_counter s
  · constructor
    · intro hcl
      rcases e with _ | h | _
      · simp [buildStep] at hcl
      · simp [buildStep] at hcl
      · refine ⟨rfl, ?_⟩
        have hone : exitsCount u + 1 ≤ entersCount u := by
          have := hbal (u.length + 1) (by simp)
          have htake : (u ++ [BuildEvent.exit]).take (u.length + 1)
              = u ++ [BuildEvent.exit] := by
            apply List.take_of_length_le
            simp
          rw [htake] at this
          have he : exitsCount (u ++ [BuildEvent.exit]) = exitsCount u + 1 := by
            simp [exitsCount, List.filter_append]
          have hen : entersCount (u ++ [BuildEvent.exit]) = entersCount u := by
            simp [entersCount, List.filter_append]
          rw [he, hen] at this
          exact this
        have hge : (1 : Int) ≤ s.parallelCallCounts := by
          rw [hcounter]
          have : (exitsCount u + 1 : Int) ≤ (entersCount u : Int) := by
            exact_mod_cast hone
          omega
        by_contra hne
        have hpos : (0 : Int) < s.parallelCallCounts - 1 := by
          rcases lt_or_eq_of_le hge with h1 | h1
          · omega
          · exfalso
            apply hne
            rw [buildStep_exit_counter, ← h1]
            simp
        have hfalse : (buildStep s BuildEvent.exit).2 = false := by
          rw [buildStep_exit,
            if_neg (show ¬s.parallelCallCounts - 1 ≤ 0 by omega)]
        rw [hfalse] at hcl
        exact Bool.false_ne_true hcl
    · rintro ⟨rfl, hzero⟩
      rw [buildStep_exit_counter] at hzero
      rw [buildStep_exit,
        if_pos (show s.parallelCallCounts - 1 ≤ 0 by omega)]
  · intro hcl
    rcases e with _ | h | _
    · simp [buildStep] at hcl
    · simp [buildStep] at hcl
    · rw [buildStep_exit] at hcl ⊢
      split_ifs at hcl ⊢ with hle
      exact ⟨rfl, rfl⟩

/-- Witness for C3 at a concrete interleaving of two overlapping builds:
the first exit (counter 2 → 1) does not clear; the second exit (counter
1 → 0) clears, closing the pushed handle and emptying the live array. -/
theorem buildSession_clear_iff_zero_witness :
    (buildStep (runEvents initialBuildSession
        [BuildEvent.enter, BuildEvent.enter, BuildEvent.push 5, BuildEvent.exit])
      BuildEvent.exit).2 = true ∧
    (buildStep (runEvents initialBuildSession
        [BuildEvent.enter, BuildEvent.enter, BuildEvent.push 5, BuildEvent.exit])
      BuildEvent.exit).1.paralellBuilds = [] := by
  have h := buildSession_clear_iff_zero
    [BuildEvent.enter, BuildEvent.enter, BuildEvent.push 5, BuildEvent.exit]
    BuildEvent.exit (by decide)
  have hcl : (buildStep (runEvents initialBuildSession
      [BuildEvent.enter, BuildEvent.enter, BuildEvent.push 5, BuildEvent.exit])
      BuildEvent.exit).2 = true := h.2.2.1.mpr ⟨rfl, by decide⟩
  exact ⟨hcl, (h.2.2.2 hcl).1⟩

/-! ## Pipeline assembler (`resolvePlugins`)

The manifest entries are modelled as stage tags; user-supplied plugins and
the external build-plugin provider's lists are opaque, tagged by their
bucket and an identifier. -/

/-- The run command of a resolved config. -/
inductive ViteCommand where
  | build
  | serve
deriving DecidableEq, Repr

/-- The configuration values `resolvePlugins` branches on.
`depsOptimizerFlag` models the external
`isDepsOptimizerEnabled(config, false) || isDepsOptimizerEnabled(config, true)`
disjunction; `modulePreloadOff` models `config.build.modulePreload === false`;
`esbuildOff` models `config.esbuild === false`. -/
structure ResolvePluginsConfig where
  command : ViteCommand
  isWorker : Bool
  enableNativePlugin : Bool
  depsOptimizerFlag : Bool
  modulePreloadOff : Bool
  modulePreloadPolyfill : Bool
  esbuildOff : Bool
deriving DecidableEq, Repr

/-- A stage of the assembled plugin pipeline. -/
inductive PluginStage where
  | optimizedDeps
  | metadata
  | watchPackageData
  | preAlias
  | nativeAlias
  | aliasStage
  | nativeModulePreloadPolyfill
  | modulePreloadPolyfill
  | resolveStage
  | htmlInlineProxy
  | cssStage
  | nativeTransform
  | esbuildStage
  | nativeJson
  | jsonStage
  | nativeWasmHelper
  | wasmHelper
  | webWorker
  | assetStage
  | nativeWasmFallback
  | wasmFallback
  | defineStage
  | cssPost
  | buildHtml
  | workerImportMetaUrl
  | assetImportMetaUrl
  | nativeDynamicImportVars
  | dynamicImportVars
  | nativeImportGlob
  | importGlob
  | clientInjections
  | cssAnalysis
  | importAnalysis
  | userPre (i : Nat)
  | userNormal (i : Nat)
  | userPost (i : Nat)
  | buildPre (i : Nat)
  | buildPost (i : Nat)
deriving DecidableEq, Repr

/-- The template of `resolvePlugins`'s array literal, before the trailing
server-only section and before the falsy filter: each entry is `none` when
its governing condition leaves it `null`/`false`. -/
def resolvePluginsSlots (cfg : ResolvePluginsConfig)
    (prePlugins normalPlugins postPlugins buildPre buildPost : List Nat) :
    List (Option PluginStage) :=
  let isBuild := cfg.command == ViteCommand.build
  let buildPluginsPre := if isBuild then buildPre else []
  let buildPluginsPost := if isBuild then buildPost else []
  let depsOptimizerEnabled := !isBuild && cfg.depsOptimizerFlag
  [if depsOptimizerEnabled then some PluginStage.optimizedDeps else none,
   if isBuild then some PluginStage.metadata else none,
   if !cfg.isWorker then some PluginStage.watchPackageData else none,
   if !isBuild then some PluginStage.preAlias else none,
   some (if cfg.enableNativePlugin then PluginStage.nativeAlias
         else PluginStage.aliasStage)]
  ++ prePlugins.map (fun i => some (PluginStage.userPre i))
  ++ [if !cfg.modulePreloadOff && cfg.modulePreloadPolyfill then
        some (if cfg.enableNativePlugin then PluginStage.nativeModulePreloadPolyfill
              else PluginStage.modulePreloadPolyfill)
      else none,
      some PluginStage.resolveStage,
      some PluginStage.htmlInlineProxy,
      some PluginStage.cssStage,
      if !cfg.esbuildOff then
        some (if cfg.enableNativePlugin then PluginStage.nativeTransform
              else PluginStage.esbuildStage)
      else none,
      some (if cfg.enableNativePlugin then PluginStage.nativeJson
            else PluginStage.jsonStage),
      some (if cfg.enableNativePlugin then PluginStage.nativeWasmHelper
            else PluginStage.wasmHelper),
      some PluginStage.webWorker,
      some PluginStage.assetStage]
  ++ normalPlugins.map (fun i => some (PluginStage.userNormal i))
  ++ [some (if cfg.enableNativePlugin then PluginStage.nativeWasmFallback
            else PluginStage.wasmFallback),
      some PluginStage.defineStage,
      some PluginStage.cssPost,
      if isBuild then some PluginStage.buildHtml else none,
      some PluginStage.workerImportMetaUrl,
      some PluginStage.assetImportMetaUrl]
  ++ buildPluginsPre.map (fun i => some (PluginStage.buildPre i))
  ++ [some (if cfg.enableNativePlugin then PluginStage.nativeDynamicImportVars
            else PluginStage.dynamicImportVars),
      some (if cfg.enableNativePlugin then PluginStage.nativeImportGlob
            else PluginStage.importGlob)]
  ++ postPlugins.map (fun i => some (PluginStage.userPost i))
  ++ buildPluginsPost.map (fun i => some (PluginStage.buildPost i))

/-- `resolvePlugins(config, prePlugins, normalPlugins, postPlugins)`: the
template, then — in non-build mode only — the trailing server-only trio,
then the falsy filter (`.filter(Boolean)`). -/
def resolvePlugins (cfg : ResolvePluginsConfig)
    (prePlugins normalPlugins postPlugins buildPre buildPost : List Nat) :
    List PluginStage :=
  (resolvePluginsSlots cfg prePlugins normalPlugins postPlugins buildPre buildPost
    ++ (if cfg.command == ViteCommand.build then []
        else [some PluginStage.clientInjections,
              some PluginStage.cssAnalysis,
              some PluginStage.importAnalysis])).filterMap id

/-- Whether a stage is one of the three server-only analysis stages. -/
def isServerOnly : PluginStage → Bool
  | PluginStage.clientInjections => true
  | PluginStage.cssAnalysis => true
  | PluginStage.importAnalysis => true
  | _ => false

/-- A template slot holds no server-only stage. -/
def slotNoServer (o : Option PluginStage) : Bool :=
  match o with
  | some t => !isServerOnly t
  | none => true

theorem slotNoServer_ite (c : Prop) [Decidable c] (a b : Option PluginStage)
    (ha : slotNoServer a = true) (hb : slotNoServer b = true) :
    slotNoServer (if c then a else b) = true := by
  split_ifs <;> assumption

theorem slotNoServer_some_ite (c : Prop) [Decidable c] (x y : PluginStage)
    (hx : isServerOnly x = false) (hy : isServerOnly y = false) :
    slotNoServer (some (if c then x else y)) = true := by
  split_ifs <;> simp [slotNoServer, hx, hy]

theorem resolvePluginsSlots_all_noServer (cfg : ResolvePluginsConfig)
    (prePlugins normalPlugins postPlugins buildPre buildPost : List Nat) :
    (resolvePluginsSlots cfg prePlugins normalPlugins postPlugins buildPre
      buildPost).all slotNoServer = true := by
  simp only [resolvePluginsSlots, List.all_append, List.all_cons, List.all_nil,
    List.all_map, Function.comp, Bool.and_eq_true]
  and_intros <;>
    first
      | rfl
      | trivial
      | (refine List.all_eq_true.mpr ?_;
         intro o ho;
         rcases List.mem_map.mp ho with ⟨i, hi, rfl⟩;
         rfl)
      | (apply slotNoServer_ite <;>
          first
            | rfl
            | (apply slotNoServer_some_ite <;> rfl))
      | (apply slotNoServer_some_ite <;> rfl)

theorem noServer_of_slots (l : List (Option PluginStage))
    (h : l.all slotNoServer = true) :
    ∀ t ∈ l.filterMap id, isServerOnly t = false := by
  intro t ht
  rcases List.mem_filterMap.mp ht with ⟨o, ho, hot⟩
  have hall := List.all_eq_true.mp h o ho
  cases o with
  | none => cases hot
  | some x =>
    have hx : x = t := by simpa using hot
    subst hx
    simpa [slotNoServer] using hall

/-- C5: the assembled plugin list ends with the trio client-injections,
css-analysis, import-analysis — in that order, appearing nowhere earlier —
exactly when the command is not `'build'`; in build mode none of the three
server-only stages appears anywhere in the list. -/
theorem resolvePlugins_server_only_trailing_trio (cfg : ResolvePluginsConfig)
    (prePlugins normalPlugins postPlugins buildPre buildPost : List Nat) :
    (cfg.command ≠ ViteCommand.build →
      ∃ front : List PluginStage,
        resolvePlugins cfg prePlugins normalPlugins postPlugins buildPre buildPost
          = front ++ [PluginStage.clientInjections, PluginStage.cssAnalysis,
              PluginStage.importAnalysis] ∧
        ∀ t ∈ front, isServerOnly t = false) ∧
    (cfg.command = ViteCommand.build →
      ∀ t ∈ resolvePlugins cfg prePlugins normalPlugins postPlugins buildPre
          buildPost, isServerOnly t = false) := by
  have hall := resolvePluginsSlots_all_noServer cfg prePlugins normalPlugins
    postPlugins buildPre buildPost
  constructor
  · intro hne
    have hb : (cfg.command == ViteCommand.build) = false := by
      rcases hc : cfg.command
      · exact absurd hc hne
      · rfl
    refine ⟨(resolvePluginsSlots cfg prePlugins normalPlugins postPlugins
        buildPre buildPost).filterMap id, ?_, noServer_of_slots _ hall⟩
    unfold resolvePlugins
    rw [hb]
    simp [List.filterMap_append]
  · intro hbuild
    have hb : (cfg.command == ViteCommand.build) = true := by
      rw [hbuild]; rfl
    intro t ht
    unfold resolvePlugins at ht
    rw [hb] at ht
    simp only [if_pos, List.append_nil] at ht
    exact noServer_of_slots _ hall t ht

/-- Witness for C5 at a concrete input: in serve mode with no user plugins,
the assembled list ends with the server-only trio. -/
theorem resolvePlugins_server_only_trailing_trio_witness :
    ∃ front : List PluginStage,
      resolvePlugins ⟨ViteCommand.serve, false, false, false, false, false, false⟩
          [] [] [] [] []
        = front ++ [PluginStage.clientInjections, PluginStage.cssAnalysis,
            PluginStage.importAnalysis] ∧
      ∀ t ∈ front, isServerOnly t = false :=
  (resolvePlugins_server_only_trailing_trio
      ⟨ViteCommand.serve, false, false, false, false, false, false⟩
      [] [] [] [] []).1 (by decide)

/-! ## Build option resolution (`resolveBuildOptions` in `build/index.ts`)

Opaque option objects (`terserOptions`, `rollupOptions`) are modelled as
numeric payload ids with `0` standing for the empty object `{}`. -/

/-- The `sourcemap` build option: a boolean or `'inline'`. -/
inductive BuildSourcemap where
  | boolean (b : Bool)
  | inlineMap
deriving DecidableEq, Repr

/-- The `minify` build option: a boolean, `'terser'` or `'esbuild'`. -/
inductive BuildMinify where
  | boolean (b : Bool)
  | terser
  | esbuild
deriving DecidableEq, Repr

/-- The raw (all-optional) `BuildOptions` object. -/
structure BuildOptions where
  entry : Option String := none
  base : Option String := none
  outDir : Option String := none
  assetsDir : Option String := none
  assetsInlineLimit : Option Nat := none
  cssCodeSplit : Option Bool := none
  sourcemap : Option BuildSourcemap := none
  minify : Option BuildMinify := none
  terserOptions : Option Nat := none
  ssr : Option Bool := none
  rollupOptions : Option Nat := none
  write : Option Bool := none
  emitIndex : Option Bool := none
  emitAssets : Option Bool := none
  emitManifest : Option Bool := none
deriving DecidableEq, Repr

/-- `Required<BuildOptions>`: every field resolved. -/
structure ResolvedBuildOptions where
  entry : String
  base : String
  outDir : String
  assetsDir : String
  assetsInlineLimit : Nat
  cssCodeSplit : Bool
  sourcemap : BuildSourcemap
  minify : BuildMinify
  terserOptions : Nat
  ssr : Bool
  rollupOptions : Nat
  write : Bool
  emitIndex : Bool
  emitAssets : Bool
  emitManifest : Bool
deriving DecidableEq, Repr

/-- `base.replace(/([^\/])$/, '$1\/')`: append a `'/'` exactly when the
string's last character exists and is not `'/'` (the empty string has no
match and is unchanged). -/
def ensureTrailingSlash (s : String) : String :=
  match s.data.getLast? with
  | some c => if c = '/' then s else s ++ "/"
  | none => s

/-- `resolveBuildOptions(raw)`: spread the defaults, overlay the raw
options, then normalize `base`'s trailing slash. -/
def resolveBuildOptions (raw : Option BuildOptions) : ResolvedBuildOptions :=
  let r := raw.getD {}
  let resolved : ResolvedBuildOptions :=
    { entry := r.entry.getD "index.html"
      base := r.base.getD "/"
      outDir := r.outDir.getD "dist"
      assetsDir := r.assetsDir.getD "assets"
      assetsInlineLimit := r.assetsInlineLimit.getD 4096
      cssCodeSplit := r.cssCodeSplit.getD true
      sourcemap := r.sourcemap.getD (BuildSourcemap.boolean false)
      minify := r.minify.getD BuildMinify.terser
      terserOptions := r.terserOptions.getD 0
      ssr := r.ssr.getD false
      rollupOptions := r.rollupOptions.getD 0
      write := r.write.getD true
      emitIndex := r.emitIndex.getD true
      emitAssets := r.emitAssets.getD true
      emitManifest := r.emitManifest.getD false }
  { resolved with base := ensureTrailingSlash resolved.base }

/-- How many `'/'` characters the string ends with. -/
def trailingSlashCount (s : String) : Nat :=
  (s.data.reverse.takeWhile (fun c => c == '/')).length

/-- C6 counterexample: the claim says every resolved base ends with exactly
one trailing `'/'`, but a supplied base already ending in two slashes is
returned unchanged with two. -/
theorem resolveBuildOptions_base_two_slashes :
    trailingSlashCount (resolveBuildOptions (some { base := some "/app//" })).base
        = 2 ∧
      (2 : Nat) ≠ 1 := by
  constructor
  · rfl
  · decide

/-- C6 (amended): the resolved base is the raw base (default `"/"`) with a
`'/'` appended exactly when its last character is not already `'/'`; hence
every nonempty base resolves to a base ending in `'/'`, a base already
ending in `'/'` is returned unchanged, and in particular `"/app"` resolves
to `"/app/"` and `"/app/"` is unchanged.  (The claim's "exactly one
trailing separator" fails when the supplied base already ends in repeated
slashes, and the empty base is returned empty.) -/
theorem resolveBuildOptions_base_trailing_slash :
    (∀ raw : Option BuildOptions,
        (resolveBuildOptions raw).base
          = ensureTrailingSlash ((raw.getD {}).base.getD "/")) ∧
    (∀ s : String, s ≠ "" →
        (ensureTrailingSlash s).data.getLast? = some '/') ∧
    (∀ s : String, s.data.getLast? = some '/' → ensureTrailingSlash s = s) ∧
    (∀ (s : String) (c : Char), s.data.getLast? = some c → c ≠ '/' →
        ensureTrailingSlash s = s ++ "/") ∧
    (resolveBuildOptions (some { base := some "/app" })).base = "/app/" ∧
    (resolveBuildOptions (some { base := some "/app/" })).base = "/app/" := by
  refine ⟨fun raw => rfl, ?_, ?_, ?_, rfl, rfl⟩
  · intro s hne
    rcases hl : s.data.getLast? with _ | c
    · exfalso
      apply hne
      have hdata : s.data = [] := by
        rwa [List.getLast?_eq_none_iff] at hl
      apply String.ext
      simpa using hdata
    · by_cases hc : c = '/'
      · subst hc
        simp [ensureTrailingSlash, hl]
      · simp only [ensureTrailingSlash, hl, if_neg hc]
        rw [show (s ++ "/").data = s.data ++ ['/'] by simp]
        exact List.getLast?_concat _
  · intro s hl
    simp [ensureTrailingSlash, hl]
  · intro s c hl hc
    simp [ensureTrailingSlash, hl, hc]

/-- Witness for C6 (amended) at a concrete input: a nonempty base gets a
trailing slash. -/
theorem resolveBuildOptions_base_trailing_slash_witness :
    (ensureTrailingSlash "dist").data.getLast? = some '/' :=
  resolveBuildOptions_base_trailing_slash.2.1 "dist" (by decide)

/-- C10: `resolveBuildOptions` resolves every field other than `base` to
the supplied value when present and to its documented default when absent,
and `base` to the trailing-slash normalization of its supplied value
(default `"/"`) — so the supplied `base` is returned either verbatim or
with exactly one `'/'` appended, and no other field is modified. -/
theorem resolveBuildOptions_frame (raw : Option BuildOptions) :
    (resolveBuildOptions raw).entry = (raw.getD {}).entry.getD "index.html" ∧
    (resolveBuildOptions raw).base
      = ensureTrailingSlash ((raw.getD {}).base.getD "/") ∧
    (resolveBuildOptions raw).outDir = (raw.getD {}).outDir.getD "dist" ∧
    (resolveBuildOptions raw).assetsDir = (raw.getD {}).assetsDir.getD "assets" ∧
    (resolveBuildOptions raw).assetsInlineLimit
      = (raw.getD {}).assetsInlineLimit.getD 4096 ∧
    (resolveBuildOptions raw).cssCodeSplit = (raw.getD {}).cssCodeSplit.getD true ∧
    (resolveBuildOptions raw).sourcemap
      = (raw.getD {}).sourcemap.getD (BuildSourcemap.boolean false) ∧
    (resolveBuildOptions raw).minify = (raw.getD {}).minify.getD BuildMinify.terser ∧
    (resolveBuildOptions raw).terserOptions = (raw.getD {}).terserOptions.getD 0 ∧
    (resolveBuildOptions raw).ssr = (raw.getD {}).ssr.getD false ∧
    (resolveBuildOptions raw).rollupOptions = (raw.getD {}).rollupOptions.getD 0 ∧
    (resolveBuildOptions raw).write = (raw.getD {}).write.getD true ∧
    (resolveBuildOptions raw).emitIndex = (raw.getD {}).emitIndex.getD true ∧
    (resolveBuildOptions raw).emitAssets = (raw.getD {}).emitAssets.getD true ∧
    (resolveBuildOptions raw).emitManifest = (raw.getD {}).emitManifest.getD false ∧
    (∀ b : String, (raw.getD {}).base = some b →
        (resolveBuildOptions raw).base = b ∨
        (resolveBuildOptions raw).base = b ++ "/") := by
  refine ⟨rfl, rfl, rfl, rfl, rfl, rfl, rfl, rfl, rfl, rfl, rfl, rfl, rfl, rfl,
    rfl, ?_⟩
  intro b hb
  have hbase : (resolveBuildOptions raw).base = ensureTrailingSlash b := by
    have h0 : (resolveBuildOptions raw).base
        = ensureTrailingSlash ((raw.getD {}).base.getD "/") := rfl
    rw [h0, hb]
    rfl
  rw [hbase]
  rcases hl : b.data.getLast? with _ | c
  · exact Or.inl (by simp [ensureTrailingSlash, hl])
  · by_cases hc : c = '/'
    · exact Or.inl (by simp [ensureTrailingSlash, hl, hc])
    · exact Or.inr (by simp [ensureTrailingSlash, hl, hc])

end ViteModel
